import Mathlib

/-!
Verification of the embedding-matching and duplicate-detection core of the
Kalacam backend (service/usuario_service.py), shallowly embedded in Lean.

Python floats are modelled as real numbers, `float("inf")` as `⊤ : WithTop ℝ`,
byte strings as `List ℕ`, and each `raise HTTPException(...)` site as one
constructor of the error type `ErrS`, propagated through `Except`.
The SQLAlchemy session is replaced by the list of users it would return
from `obtener_usuarios`.
-/

/- ## Definitions: the shallow embedding of the code -/

/-- Modelled from the spec: the `Usuario` record of `model/models.py`
(not present in the sources; §3 Identity: unique id, name fields, contact
attribute, one embedding, optional reference to a stored image), as
constructed by `crearUsuario`. -/
structure Usuario where
  id : ℤ
  nombre : String
  apellido : String
  email : String
  embedding : List ℝ
  imagen : Option String

noncomputable instance : DecidableEq Usuario := Classical.decEq _

/-- One constructor per `raise` site of the embedded code, identified by the
HTTP status code and `detail` string of the `HTTPException` raised there.
`dimensionMismatch` models the ValueError that `scipy.spatial.distance.cosine`
raises on vectors of different lengths (the spec's `DimensionMismatch`).
`rostroDuplicado` (409 "Rostro duplicado") carries the id of the existing user
and the offending distance, which at that raise site are written to the log
(the spec's `DuplicateFace(existingId, distance)`). -/
inductive ErrS where
  /-- 400 "Sin imagen": empty byte input (spec: `InvalidImage`). -/
  | sinImagen
  /-- 400 "Imagen invalida": `cv2.imdecode` returned None (spec: `InvalidImage`). -/
  | imagenInvalida
  /-- 400 "Sin rostro": zero faces in the DeepFace result (spec: `NoFaceDetected`). -/
  | sinRostro
  /-- 400 "Rostro invalido": zero-length embedding (spec: `InvalidFace`). -/
  | rostroInvalido
  /-- 400 "Rostro no detectado": DeepFace raised ValueError (spec: `NoFaceDetected`). -/
  | rostroNoDetectado
  /-- 500 "Error de importación": ImportError (spec: `ExtractionFailure`). -/
  | errorImportacion
  /-- 500 "Error procesar imagen": unexpected exception (spec: `ExtractionFailure`). -/
  | errorProcesarImagen
  /-- 500 "Error inesperado": unexpected DeepFace result shape. -/
  | errorInesperado
  /-- ValueError from scipy on mismatched vector lengths (spec: `DimensionMismatch`). -/
  | dimensionMismatch
  /-- 409 "Rostro duplicado" (spec: `DuplicateFace(existingId, distance)`). -/
  | rostroDuplicado (usuarioId : ℤ) (distancia : ℝ)
  /-- 404 "Sin usuarios" (spec: `NoEnrolledIdentities`). -/
  | sinUsuarios
  /-- 400 "Nombre vacio". -/
  | nombreVacio
  /-- 400 "Apellido vacio". -/
  | apellidoVacio
  /-- 400 "Nombre muy largo". -/
  | nombreMuyLargo
  /-- 400 "Email vacio". -/
  | emailVacio
  /-- 400 "Email invalido". -/
  | emailInvalido
  /-- 400 "Embedding invalido". -/
  | embeddingInvalido
  /-- 400 "Error subir": image upload failed. -/
  | errorSubir
  /-- 409 "Email duplicado": IntegrityError mentioning email/duplicate. -/
  | emailDuplicado
  /-- 400 "Error crear": other IntegrityError. -/
  | errorCrear

/-- Dot product `A·B` of two float vectors (`np.dot` on 1-D arrays of equal
length; on unequal lengths `np.dot` raises, which `cosine` below checks first). -/
def dotProd (a b : List ℝ) : ℝ :=
  (List.zipWith (fun x y => x * y) a b).sum

/-- Modelled from the spec: the value computed by `scipy.spatial.distance.cosine`
on equal-length vectors, `1 - (A·B) / (‖A‖·‖B‖)` with `‖A‖ = sqrt (A·A)`. -/
noncomputable def cosineDistR (a b : List ℝ) : ℝ :=
  1 - dotProd a b / (Real.sqrt (dotProd a a) * Real.sqrt (dotProd b b))

/-- Modelled from the spec: `scipy.spatial.distance.cosine`, which raises on
vectors of different lengths (never truncating or padding) and otherwise
returns the cosine distance. -/
noncomputable def cosine (a b : List ℝ) : Except ErrS ℝ :=
  if a.length = b.length then .ok (cosineDistR a b) else .error .dimensionMismatch

/-- `UMBRAL_SIMILITUD = 0.33` of service/usuario_service.py (the single
threshold playing both `IDENTIFY_THRESHOLD` and `DUPLICATE_THRESHOLD`). -/
def UMBRAL_SIMILITUD : ℝ := 0.33

/-- A decoded image (`cv2.imdecode` result); its pixel content is irrelevant
to the matching core, only whether decoding succeeded. -/
structure Imagen where
  filas : List (List ℝ)

/-- Shape of a non-raising `DeepFace.represent` return value, as discriminated
by the isinstance checks of `validarRostro`: `nulo` is Python `None`,
`listaDicts` a list whose dicts may or may not contain the "embedding" key,
`listaNums` a plain list of numbers (old DeepFace versions), `dictRes` a single
dict, `otro` any other shape. -/
inductive DFResult where
  | nulo
  | listaDicts (items : List (Option (List ℝ)))
  | listaNums (xs : List ℝ)
  | dictRes (item : Option (List ℝ))
  | otro

/-- Outcome of calling `DeepFace.represent`: a returned value, a ValueError
(how DeepFace signals an undetectable face), an ImportError, or any other
exception. -/
inductive DFOutcome where
  | ret (r : DFResult)
  | valueError
  | importError
  | otherError

/-- Normalization of the `DeepFace.represent` result performed by
`validarRostro` (service/usuario_service.py lines 151-188): `None` and empty
or key-less lists give 400 "Sin rostro"; the old list-of-numbers format is
returned directly (before the zero-length check, which only guards the dict
formats); a zero-length embedding gives 400 "Rostro invalido"; unexpected
shapes give 500 "Error inesperado". The `rostros_detectados == 0` re-check of
line 177 is provably dead (both branches reaching it force a non-empty list
whose head has the key) and is not repeated here. -/
def procesarResultado : DFResult → Except ErrS (List ℝ)
  | .nulo => .error .sinRostro
  | .listaDicts [] => .error .sinRostro
  | .listaDicts (none :: _) => .error .sinRostro
  | .listaDicts (some emb :: _) =>
      if emb.isEmpty then .error .rostroInvalido else .ok emb
  | .listaNums [] => .error .sinRostro
  | .listaNums (x :: xs) => .ok (x :: xs)
  | .dictRes (some emb) =>
      if emb.isEmpty then .error .rostroInvalido else .ok emb
  | .dictRes none => .error .errorInesperado
  | .otro => .error .errorInesperado

/-- `validarRostro` (service/usuario_service.py lines 102-210): empty bytes
give 400 "Sin imagen"; a failed decode gives 400 "Imagen invalida"; otherwise
the DeepFace outcome is normalized by `procesarResultado`, a ValueError maps
to 400 "Rostro no detectado", an ImportError to 500 "Error de importación"
and any other exception to 500 "Error procesar imagen". The decoding and
extraction capabilities (`cv2.imdecode`, `DeepFace.represent`) are passed as
functions. -/
def validarRostro (contenido : List ℕ) (imdecode : List ℕ → Option Imagen)
    (represent : Imagen → DFOutcome) : Except ErrS (List ℝ) :=
  if contenido.isEmpty then .error .sinImagen
  else
    match imdecode contenido with
    | none => .error .imagenInvalida
    | some img =>
        match represent img with
        | .ret r => procesarResultado r
        | .valueError => .error .rostroNoDetectado
        | .importError => .error .errorImportacion
        | .otherError => .error .errorProcesarImagen

/-- `validarRostroRapido` (service/usuario_service.py lines 50-99): same two
input-validation rules, then the Haar-cascade detector (passed as a function
returning the number of faces found); returns whether at least one face was
detected. -/
def validarRostroRapido (contenido : List ℕ) (imdecode : List ℕ → Option Imagen)
    (detectMultiScale : Imagen → ℕ) : Except ErrS Bool :=
  if contenido.isEmpty then .error .sinImagen
  else
    match imdecode contenido with
    | none => .error .imagenInvalida
    | some img => .ok (0 < detectMultiScale img)

/-- One iteration of the `for usuario in usuarios` loop of `compararRostro`
(service/usuario_service.py lines 350-357): a user with an empty (falsy)
embedding is skipped; otherwise the cosine distance to the query is computed
(propagating scipy's mismatch error) and the minimum-so-far and its user are
updated on a strict improvement. `float("inf")` is `⊤ : WithTop ℝ`. -/
noncomputable def pasoComparacion (q : List ℝ) (st : WithTop ℝ × Option Usuario)
    (u : Usuario) : Except ErrS (WithTop ℝ × Option Usuario) :=
  if u.embedding.isEmpty then .ok st
  else
    match cosine q u.embedding with
    | .error e => .error e
    | .ok d => if (d : WithTop ℝ) < st.1 then .ok ((d : WithTop ℝ), some u) else .ok st

/-- The whole scan loop of `compararRostro`, started from
`menor_distancia = float("inf")`, `usuario_reconocido = None`. -/
noncomputable def comparacionFold (q : List ℝ) (usuarios : List Usuario) :
    Except ErrS (WithTop ℝ × Option Usuario) :=
  usuarios.foldlM (pasoComparacion q) ((⊤ : WithTop ℝ), none)

/-- The identification phase of `compararRostro` after the query embedding has
been extracted (service/usuario_service.py lines 343-370): 404 "Sin usuarios"
on an empty user list, then the scan, then the user's name is returned when
`menor_distancia < UMBRAL_SIMILITUD and usuario_reconocido`, else `None`. -/
noncomputable def compararRostroEmbedding (q : List ℝ) (usuarios : List Usuario) :
    Except ErrS (Option String) :=
  if usuarios.isEmpty then .error .sinUsuarios
  else
    match comparacionFold q usuarios with
    | .error e => .error e
    | .ok (menor, reconocido) =>
        match reconocido with
        | some u =>
            if menor < (UMBRAL_SIMILITUD : WithTop ℝ) then .ok (some u.nombre)
            else .ok none
        | none => .ok none

/-- `compararRostro` (service/usuario_service.py lines 326-370): extraction of
the query embedding via `validarRostro`, then the identification phase. -/
noncomputable def compararRostro (contenido : List ℕ)
    (imdecode : List ℕ → Option Imagen) (represent : Imagen → DFOutcome)
    (usuarios : List Usuario) : Except ErrS (Option String) :=
  match validarRostro contenido imdecode represent with
  | .error e => .error e
  | .ok q => compararRostroEmbedding q usuarios

/-- Pure form of one scan step, equal to `pasoComparacion` whenever every
considered embedding has the query's dimension. -/
noncomputable def pasoPuro (q : List ℝ) (st : WithTop ℝ × Option Usuario)
    (u : Usuario) : WithTop ℝ × Option Usuario :=
  if u.embedding.isEmpty then st
  else if (cosineDistR q u.embedding : WithTop ℝ) < st.1 then
    ((cosineDistR q u.embedding : WithTop ℝ), some u)
  else st

/-- The true minimum cosine distance from the query over all enrolled
embeddings considered (those stored non-empty), following the spec's words;
`⊤` (that is, `float("inf")`) when none is considered. -/
noncomputable def specMinDistancia (q : List ℝ) (usuarios : List Usuario) : WithTop ℝ :=
  ((usuarios.filter (fun u => !u.embedding.isEmpty)).map
    (fun u => ((cosineDistR q u.embedding : ℝ) : WithTop ℝ))).foldr min ⊤

/-- Invariant of the scan state: either nothing has been recognized yet and
the tracked minimum is still `inf`, or the tracked minimum is the distance to
the recognized user. -/
def EstadoValido (q : List ℝ) (st : WithTop ℝ × Option Usuario) : Prop :=
  (st.2 = none ∧ st.1 = ⊤) ∨
    ∃ c, st.2 = some c ∧ st.1 = ((cosineDistR q c.embedding : ℝ) : WithTop ℝ)

/-- The truthiness-guarded exclusion test
`if excluir_usuario_id and usuario.id == excluir_usuario_id` of
`validarRostroDuplicado` (line 237): the user is skipped iff an exclusion id
was given, it is nonzero (Python `0` is falsy), and it equals the user's id. -/
def excluidoTruthy (excluirUsuarioId : Option ℤ) (usuarioId : ℤ) : Bool :=
  match excluirUsuarioId with
  | some e => decide (e ≠ 0) && decide (usuarioId = e)
  | none => false

/-- `validarRostroDuplicado` (service/usuario_service.py lines 214-253): scan
all users; skip the excluded user (per `excluidoTruthy`) and users with empty
(falsy) stored embeddings; raise 409 "Rostro duplicado" at the first user
whose cosine distance to the query embedding is below `UMBRAL_SIMILITUD`;
scipy's dimension error propagates. -/
noncomputable def validarRostroDuplicado :
    List Usuario → List ℝ → Option ℤ → Except ErrS Unit
  | [], _, _ => .ok ()
  | u :: resto, embedding, excluirUsuarioId =>
    if excluidoTruthy excluirUsuarioId u.id then
      validarRostroDuplicado resto embedding excluirUsuarioId
    else if u.embedding.isEmpty then
      validarRostroDuplicado resto embedding excluirUsuarioId
    else
      cosine embedding u.embedding >>= fun d =>
        if d < UMBRAL_SIMILITUD then .error (.rostroDuplicado u.id d)
        else validarRostroDuplicado resto embedding excluirUsuarioId

def esWordChar (c : Char) : Bool := c.isAlphanum || c = '_'

def esClaseEmail (c : Char) : Bool := esWordChar c || c = '.' || c = '-'

/-- The test `re.match(r"^[\w\.-]+@[\w\.-]+\.\w+$", email)` of `crearUsuario`
(lines 287-288), with `\w` read as ASCII alphanumeric or underscore: one or
more class characters, one `@`, then class characters containing a dot whose
final occurrence is preceded by at least one character and followed by one or
more word characters. -/
def emailValido (email : String) : Bool :=
  let cs := email.data
  let antes := cs.takeWhile (fun c => c ≠ '@')
  let resto := cs.dropWhile (fun c => c ≠ '@')
  match resto with
  | [] => false
  | _ :: despues =>
      let sufijo := (despues.reverse.takeWhile (fun c => c ≠ '.')).reverse
      let previo := (despues.reverse.dropWhile (fun c => c ≠ '.')).reverse
      !antes.isEmpty && antes.all esClaseEmail &&
        despues.all esClaseEmail && decide (2 ≤ previo.length) &&
        !sufijo.isEmpty && sufijo.all esWordChar

/-- Python `str.strip()`, modelled over the character list (`String.trim`
itself is an extern function the kernel cannot evaluate). -/
def stripPy (s : String) : String :=
  ⟨((s.data.dropWhile Char.isWhitespace).reverse.dropWhile Char.isWhitespace).reverse⟩

/-- Python `str.lower()`, modelled over the character list. -/
def lowerPy (s : String) : String :=
  ⟨s.data.map Char.toLower⟩

/-- The image-upload block of `crearUsuario` (lines 298-304): a missing image
(or Python-falsy empty bytes) leaves `ruta_imagen = None`; otherwise the
upload capability either yields a path or raises, the latter mapped to
400 "Error subir". -/
noncomputable def rutaSubida (imagen : Option (List ℕ))
    (subida : Except Unit String) : Except ErrS (Option String) :=
  match imagen with
  | none => .ok none
  | some bs =>
      if bs.isEmpty then .ok none
      else
        match subida with
        | .error _ => .error .errorSubir
        | .ok ruta => .ok (some ruta)

/-- `crearUsuario` (service/usuario_service.py lines 256-323): field
validations, then the duplicate check, then the image upload, then the
insert. The database session is the current user list and a successful
creation returns the saved user together with the extended list, so an error
leaves the store untouched. The upload outcome is the parameter `subida`, the
DB-assigned id is `nuevoId`, and the IntegrityError of the unique email
column (mapped to 409 "Email duplicado") is modelled as a pre-existing user
carrying the same normalized email. -/
noncomputable def crearUsuario (usuarios : List Usuario)
    (nombre apellido email : String) (embedding : List ℝ)
    (imagen : Option (List ℕ)) (subida : Except Unit String) (nuevoId : ℤ) :
    Except ErrS (Usuario × List Usuario) :=
  if nombre.isEmpty || (stripPy nombre).isEmpty then .error .nombreVacio
  else if apellido.isEmpty || (stripPy apellido).isEmpty then .error .apellidoVacio
  else if 100 < nombre.length ∨ 100 < apellido.length then .error .nombreMuyLargo
  else if email.isEmpty || (stripPy email).isEmpty then .error .emailVacio
  else if ¬ emailValido email then .error .emailInvalido
  else if embedding.isEmpty then .error .embeddingInvalido
  else
    validarRostroDuplicado usuarios embedding none >>= fun _ =>
      rutaSubida imagen subida >>= fun ruta =>
        let nuevo : Usuario :=
          ⟨nuevoId, stripPy nombre, stripPy apellido, lowerPy (stripPy email),
            embedding, ruta⟩
        if usuarios.any (fun u => u.email == lowerPy (stripPy email)) then
          .error .emailDuplicado
        else .ok (nuevo, usuarios ++ [nuevo])

/- ## Theorems -/

theorem dotProd_comm (a b : List ℝ) : dotProd a b = dotProd b a := by
  unfold dotProd
  rw [List.zipWith_comm_of_comm]
  intro x y
  exact mul_comm x y

theorem cosineDistR_comm (a b : List ℝ) : cosineDistR a b = cosineDistR b a := by
  unfold cosineDistR
  rw [dotProd_comm a b, mul_comm]

/-- C9: the cosine distance used by the matcher is symmetric: for equal-length
embeddings A and B, `distance(A,B) = distance(B,A)`. -/
theorem cosine_symm (a b : List ℝ) (h : a.length = b.length) :
    cosine a b = cosine b a := by
  unfold cosine
  rw [h, cosineDistR_comm]

/-- Witness for C9 at A = [1, 2], B = [3, 4]. -/
theorem cosine_symm_witness :
    cosine [(1 : ℝ), 2] [(3 : ℝ), 4] = cosine [(3 : ℝ), 4] [(1 : ℝ), 2] :=
  cosine_symm [(1 : ℝ), 2] [(3 : ℝ), 4] rfl

/-- C7: `extract` on empty bytes fails with `InvalidImage` (400 "Sin imagen"),
and on non-empty bytes that do not decode as a supported raster image it also
fails with `InvalidImage` (400 "Imagen invalida"); the fast path
`validarRostroRapido` applies the same two rules. -/
theorem extract_invalid_image (contenido : List ℕ)
    (imdecode : List ℕ → Option Imagen) (represent : Imagen → DFOutcome)
    (detectMultiScale : Imagen → ℕ) :
    validarRostro [] imdecode represent = .error .sinImagen ∧
    validarRostroRapido [] imdecode detectMultiScale = .error .sinImagen ∧
    (contenido ≠ [] → imdecode contenido = none →
      validarRostro contenido imdecode represent = .error .imagenInvalida ∧
      validarRostroRapido contenido imdecode detectMultiScale
        = .error .imagenInvalida) := by
  refine ⟨rfl, rfl, fun hne hdec => ?_⟩
  have hne' : contenido.isEmpty = false := by simp [hne]
  unfold validarRostro validarRostroRapido
  simp [hne', hdec]

/-- Witness for C7: the undecodable one-byte input `[255]` with a decoder
that rejects it. -/
theorem extract_invalid_image_witness :
    validarRostro [] (fun _ => none) (fun _ => .valueError) = .error .sinImagen ∧
    validarRostroRapido [] (fun _ => none) (fun _ => 0) = .error .sinImagen ∧
    (validarRostro [255] (fun _ => none) (fun _ => .valueError)
        = .error .imagenInvalida ∧
      validarRostroRapido [255] (fun _ => none) (fun _ => 0)
        = .error .imagenInvalida) := by
  obtain ⟨h1, h2, h3⟩ :=
    extract_invalid_image [255] (fun _ => none) (fun _ => .valueError) (fun _ => 0)
  exact ⟨h1, h2, h3 (by simp) rfl⟩

/-- C4: when the extraction capability reports zero faces (`None` or an empty
result list), `extract` fails with `NoFaceDetected` (400 "Sin rostro"); the
no-face ValueError signal maps to `NoFaceDetected` (400 "Rostro no detectado")
and never to `ExtractionFailure`, and an unexpected extraction exception maps
to `ExtractionFailure` (500 "Error procesar imagen") and never to
`NoFaceDetected`: each of the two 500-level failures occurs exactly for its
own capability outcome. -/
theorem extractor_error_separation (contenido : List ℕ)
    (imdecode : List ℕ → Option Imagen) (represent : Imagen → DFOutcome)
    (img : Imagen) (hne : contenido ≠ []) (hdec : imdecode contenido = some img) :
    (represent img = .ret .nulo →
      validarRostro contenido imdecode represent = .error .sinRostro) ∧
    (represent img = .ret (.listaDicts []) →
      validarRostro contenido imdecode represent = .error .sinRostro) ∧
    (validarRostro contenido imdecode represent = .error .rostroNoDetectado ↔
      represent img = .valueError) ∧
    (validarRostro contenido imdecode represent = .error .errorProcesarImagen ↔
      represent img = .otherError) ∧
    (validarRostro contenido imdecode represent = .error .errorImportacion ↔
      represent img = .importError) := by
  have hne' : contenido.isEmpty = false := by simp [hne]
  unfold validarRostro
  simp only [hne', Bool.false_eq_true, if_false, hdec]
  refine ⟨fun h => by rw [h]; rfl, fun h => by rw [h]; rfl, ?_, ?_, ?_⟩
  all_goals
    constructor
    · intro h
      cases hrep : represent img with
      | ret r =>
          rw [hrep] at h
          cases r with
          | nulo => exact absurd h (by simp [procesarResultado])
          | listaDicts items =>
              cases items with
              | nil => exact absurd h (by simp [procesarResultado])
              | cons hd tl =>
                  cases hd with
                  | none => exact absurd h (by simp [procesarResultado])
                  | some emb =>
                      by_cases he : emb.isEmpty <;>
                        simp [procesarResultado, he] at h
          | listaNums xs =>
              cases xs with
              | nil => exact absurd h (by simp [procesarResultado])
              | cons x t => exact absurd h (by simp [procesarResultado])
          | dictRes item =>
              cases item with
              | none => exact absurd h (by simp [procesarResultado])
              | some emb =>
                  by_cases he : emb.isEmpty <;>
                    simp [procesarResultado, he] at h
          | otro => exact absurd h (by simp [procesarResultado])
      | valueError => first | rfl | (rw [hrep] at h; exact absurd h (by simp))
      | importError => first | rfl | (rw [hrep] at h; exact absurd h (by simp))
      | otherError => first | rfl | (rw [hrep] at h; exact absurd h (by simp))
    · intro h
      rw [h]

/-- Witness for C4: one-byte input, a decoder accepting it, and a capability
that raises an unexpected (non-ValueError) exception. -/
theorem extractor_error_separation_witness :
    (DFOutcome.otherError = DFOutcome.ret .nulo →
      validarRostro [1] (fun _ => some ⟨[]⟩) (fun _ => DFOutcome.otherError)
        = .error .sinRostro) ∧
    (DFOutcome.otherError = DFOutcome.ret (.listaDicts []) →
      validarRostro [1] (fun _ => some ⟨[]⟩) (fun _ => DFOutcome.otherError)
        = .error .sinRostro) ∧
    (validarRostro [1] (fun _ => some ⟨[]⟩) (fun _ => DFOutcome.otherError)
        = .error .rostroNoDetectado ↔
      DFOutcome.otherError = DFOutcome.valueError) ∧
    (validarRostro [1] (fun _ => some ⟨[]⟩) (fun _ => DFOutcome.otherError)
        = .error .errorProcesarImagen ↔
      DFOutcome.otherError = DFOutcome.otherError) ∧
    (validarRostro [1] (fun _ => some ⟨[]⟩) (fun _ => DFOutcome.otherError)
        = .error .errorImportacion ↔
      DFOutcome.otherError = DFOutcome.importError) :=
  extractor_error_separation [1] (fun _ => some ⟨[]⟩)
    (fun _ => DFOutcome.otherError) ⟨[]⟩ (by simp) rfl

/-- C5: identification against an empty enrolled set fails with
`NoEnrolledIdentities` (404 "Sin usuarios") for every query embedding, and in
particular never returns the unmatched (no-access) result `none`. -/
theorem identify_empty_store_fails :
    (∀ q : List ℝ, compararRostroEmbedding q [] = .error .sinUsuarios) ∧
    (∀ q : List ℝ, compararRostroEmbedding q [] ≠ .ok none) := by
  constructor
  · intro q
    rfl
  · intro q h
    rw [show compararRostroEmbedding q [] = .error .sinUsuarios from rfl] at h
    exact Except.noConfusion h

theorem exceptBind_ok {α β : Type} (a : α) (f : α → Except ErrS β) :
    (Except.ok a >>= f) = f a := rfl

theorem exceptBind_error {α β : Type} (e : ErrS) (f : α → Except ErrS β) :
    ((Except.error e : Except ErrS α) >>= f) = .error e := rfl

/-- On a well-dimensioned snapshot the effectful scan is the pure fold. -/
theorem foldlM_pasoComparacion_eq (q : List ℝ) :
    ∀ (l : List Usuario) (st : WithTop ℝ × Option Usuario),
      (∀ u ∈ l, u.embedding ≠ [] → u.embedding.length = q.length) →
      List.foldlM (pasoComparacion q) st l = .ok (List.foldl (pasoPuro q) st l)
  | [], _, _ => rfl
  | u :: t, st, h => by
    have hu := h u (List.mem_cons_self u t)
    have ht : ∀ v ∈ t, v.embedding ≠ [] → v.embedding.length = q.length :=
      fun v hv => h v (List.mem_cons_of_mem u hv)
    rw [List.foldlM_cons, List.foldl_cons]
    by_cases he : u.embedding.isEmpty
    · have hstep : pasoComparacion q st u = .ok st := by simp [pasoComparacion, he]
      have hpure : pasoPuro q st u = st := by simp [pasoPuro, he]
      rw [hstep, exceptBind_ok, hpure]
      exact foldlM_pasoComparacion_eq q t st ht
    · have hne : u.embedding ≠ [] := by
        rw [← List.isEmpty_eq_false]
        simpa using he
      have hcos : cosine q u.embedding = .ok (cosineDistR q u.embedding) := by
        unfold cosine
        rw [if_pos (hu hne).symm]
      by_cases hlt : (cosineDistR q u.embedding : WithTop ℝ) < st.1
      · have hstep : pasoComparacion q st u
            = .ok ((cosineDistR q u.embedding : WithTop ℝ), some u) := by
          simp [pasoComparacion, he, hcos, hlt]
        have hpure : pasoPuro q st u
            = ((cosineDistR q u.embedding : WithTop ℝ), some u) := by
          simp [pasoPuro, he, hlt]
        rw [hstep, exceptBind_ok, hpure]
        exact foldlM_pasoComparacion_eq q t _ ht
      · have hstep : pasoComparacion q st u = .ok st := by
          simp [pasoComparacion, he, hcos, hlt]
        have hpure : pasoPuro q st u = st := by simp [pasoPuro, he, hlt]
        rw [hstep, exceptBind_ok, hpure]
        exact foldlM_pasoComparacion_eq q t st ht

/-- The tracked minimum of the pure fold is the minimum of the initial value
and the true minimum over the considered embeddings. -/
theorem foldl_pasoPuro_fst (q : List ℝ) :
    ∀ (l : List Usuario) (st : WithTop ℝ × Option Usuario),
      (List.foldl (pasoPuro q) st l).1 = min st.1 (specMinDistancia q l)
  | [], st => by simp [specMinDistancia]
  | u :: t, st => by
    rw [List.foldl_cons]
    by_cases he : u.embedding.isEmpty
    · have h1 : pasoPuro q st u = st := by simp [pasoPuro, he]
      have h2 : specMinDistancia q (u :: t) = specMinDistancia q t := by
        simp [specMinDistancia, he]
      rw [h1, h2, foldl_pasoPuro_fst q t st]
    · have h2 : specMinDistancia q (u :: t)
          = min (cosineDistR q u.embedding : WithTop ℝ) (specMinDistancia q t) := by
        simp [specMinDistancia, he]
      by_cases hlt : (cosineDistR q u.embedding : WithTop ℝ) < st.1
      · have h1 : pasoPuro q st u
            = ((cosineDistR q u.embedding : WithTop ℝ), some u) := by
          simp [pasoPuro, he, hlt]
        rw [h1, foldl_pasoPuro_fst q t, h2, ← min_assoc, min_eq_right hlt.le]
      · have h1 : pasoPuro q st u = st := by simp [pasoPuro, he, hlt]
        rw [h1, foldl_pasoPuro_fst q t st, h2, ← min_assoc,
          min_eq_left (le_of_not_lt hlt)]

theorem foldl_pasoPuro_valido (q : List ℝ) :
    ∀ (l : List Usuario) (st : WithTop ℝ × Option Usuario),
      EstadoValido q st → EstadoValido q (List.foldl (pasoPuro q) st l)
  | [], _, h => h
  | u :: t, st, h => by
    rw [List.foldl_cons]
    apply foldl_pasoPuro_valido q t
    by_cases he : u.embedding.isEmpty
    · have h1 : pasoPuro q st u = st := by simp [pasoPuro, he]
      rw [h1]
      exact h
    · by_cases hlt : (cosineDistR q u.embedding : WithTop ℝ) < st.1
      · have h1 : pasoPuro q st u
            = ((cosineDistR q u.embedding : WithTop ℝ), some u) := by
          simp [pasoPuro, he, hlt]
        rw [h1]
        exact Or.inr ⟨u, rfl, rfl⟩
      · have h1 : pasoPuro q st u = st := by simp [pasoPuro, he, hlt]
        rw [h1]
        exact h

/-- Reduction of the classification step when a user was recognized. -/
theorem compararRostroEmbedding_eq_some (q : List ℝ) (usuarios : List Usuario)
    (hne : usuarios ≠ []) (m : WithTop ℝ) (u : Usuario)
    (hfold : comparacionFold q usuarios = .ok (m, some u)) :
    compararRostroEmbedding q usuarios =
      if m < (UMBRAL_SIMILITUD : WithTop ℝ) then .ok (some u.nombre)
      else .ok none := by
  unfold compararRostroEmbedding
  rw [if_neg (by simp [hne]), hfold]

/-- Reduction of the classification step when no user was recognized. -/
theorem compararRostroEmbedding_eq_none (q : List ℝ) (usuarios : List Usuario)
    (hne : usuarios ≠ []) (m : WithTop ℝ)
    (hfold : comparacionFold q usuarios = .ok (m, none)) :
    compararRostroEmbedding q usuarios = .ok none := by
  unfold compararRostroEmbedding
  rw [if_neg (by simp [hne]), hfold]

/-- Reduction of the classification step when the scan itself failed. -/
theorem compararRostroEmbedding_eq_error (q : List ℝ) (usuarios : List Usuario)
    (hne : usuarios ≠ []) (e : ErrS)
    (hfold : comparacionFold q usuarios = .error e) :
    compararRostroEmbedding q usuarios = .error e := by
  unfold compararRostroEmbedding
  rw [if_neg (by simp [hne]), hfold]

/-- C1: for a non-empty, well-dimensioned enrolled set, the scan succeeds and
the tracked minimum distance equals the true minimum over all considered
embeddings; when `compararRostro` classifies the query as matched that
distance is strictly below `UMBRAL_SIMILITUD`, and when it classifies it as
unmatched that distance is at least `UMBRAL_SIMILITUD`. -/
theorem identify_threshold_monotonicity (q : List ℝ) (usuarios : List Usuario)
    (hne : usuarios ≠ [])
    (hdim : ∀ u ∈ usuarios, u.embedding ≠ [] → u.embedding.length = q.length) :
    ∃ menor reconocido,
      comparacionFold q usuarios = .ok (menor, reconocido) ∧
      menor = specMinDistancia q usuarios ∧
      (∀ nm, compararRostroEmbedding q usuarios = .ok (some nm) →
        menor < (UMBRAL_SIMILITUD : WithTop ℝ)) ∧
      (compararRostroEmbedding q usuarios = .ok none →
        (UMBRAL_SIMILITUD : WithTop ℝ) ≤ menor) := by
  have hfold : comparacionFold q usuarios
      = .ok (List.foldl (pasoPuro q) ((⊤ : WithTop ℝ), none) usuarios) :=
    foldlM_pasoComparacion_eq q usuarios _ hdim
  have hfst : (List.foldl (pasoPuro q) ((⊤ : WithTop ℝ), none) usuarios).1
      = specMinDistancia q usuarios := by
    rw [foldl_pasoPuro_fst q usuarios]
    exact min_eq_right le_top
  have hvalido : EstadoValido q (List.foldl (pasoPuro q) ((⊤ : WithTop ℝ), none) usuarios) :=
    foldl_pasoPuro_valido q usuarios _ (Or.inl ⟨rfl, rfl⟩)
  obtain ⟨m, r, hmr⟩ : ∃ m r,
      List.foldl (pasoPuro q) ((⊤ : WithTop ℝ), none) usuarios = (m, r) := ⟨_, _, rfl⟩
  rw [hmr] at hfold hfst hvalido
  refine ⟨m, r, hfold, hfst, ?_, ?_⟩
  · intro nm hm
    rcases hvalido with ⟨h2, _⟩ | ⟨c, h2, _⟩
    · simp only at h2
      rw [h2] at hfold
      rw [compararRostroEmbedding_eq_none q usuarios hne m hfold] at hm
      exact absurd hm (by simp)
    · simp only at h2
      rw [h2] at hfold
      rw [compararRostroEmbedding_eq_some q usuarios hne m c hfold] at hm
      by_cases hlt : m < (UMBRAL_SIMILITUD : WithTop ℝ)
      · exact hlt
      · rw [if_neg hlt] at hm
        exact absurd hm (by simp)
  · intro hm
    rcases hvalido with ⟨h2, h1⟩ | ⟨c, h2, _⟩
    · simp only at h1
      rw [h1]
      exact le_top
    · simp only at h2
      rw [h2] at hfold
      rw [compararRostroEmbedding_eq_some q usuarios hne m c hfold] at hm
      by_cases hlt : m < (UMBRAL_SIMILITUD : WithTop ℝ)
      · rw [if_pos hlt] at hm
        exact absurd hm (by simp)
      · exact le_of_not_lt hlt

/-- The scan from a current best user `c` is the first-minimizer fold of
Mathlib's `List.argAux`, provided no user is skipped. -/
theorem foldl_pasoPuro_snd (q : List ℝ) :
    ∀ (l : List Usuario) (c : Usuario), (∀ u ∈ l, u.embedding ≠ []) →
      (List.foldl (pasoPuro q)
          (((cosineDistR q c.embedding : ℝ) : WithTop ℝ), some c) l).2
        = List.foldl
            (List.argAux fun b d => cosineDistR q b.embedding < cosineDistR q d.embedding)
            (some c) l
  | [], _, _ => rfl
  | u :: t, c, h => by
    have hu : u.embedding ≠ [] := h u (List.mem_cons_self u t)
    have hu' : u.embedding.isEmpty = false := by simp [hu]
    have ht : ∀ v ∈ t, v.embedding ≠ [] := fun v hv => h v (List.mem_cons_of_mem u hv)
    have harg : List.argAux (fun b d => cosineDistR q b.embedding < cosineDistR q d.embedding)
        (some c) u
        = if cosineDistR q u.embedding < cosineDistR q c.embedding then some u
          else some c := rfl
    rw [List.foldl_cons, List.foldl_cons, harg]
    by_cases hlt : cosineDistR q u.embedding < cosineDistR q c.embedding
    · have hstep : pasoPuro q (((cosineDistR q c.embedding : ℝ) : WithTop ℝ), some c) u
          = (((cosineDistR q u.embedding : ℝ) : WithTop ℝ), some u) := by
        simp only [pasoPuro, hu', Bool.false_eq_true, if_false]
        rw [if_pos (WithTop.coe_lt_coe.mpr hlt)]
      rw [hstep, if_pos hlt]
      exact foldl_pasoPuro_snd q t u ht
    · have hstep : pasoPuro q (((cosineDistR q c.embedding : ℝ) : WithTop ℝ), some c) u
          = (((cosineDistR q c.embedding : ℝ) : WithTop ℝ), some c) := by
        simp only [pasoPuro, hu', Bool.false_eq_true, if_false]
        rw [if_neg (fun hc => hlt (WithTop.coe_lt_coe.mp hc))]
      rw [hstep, if_neg hlt]
      exact foldl_pasoPuro_snd q t c ht

/-- C8: on a snapshot with no empty embeddings and matching dimensions, the
scan recognizes exactly the first user in iteration order among those at
minimal distance: the recognized user is enrolled, its distance is a minimum,
and every user whose distance ties (or improves on) it occurs no earlier in
the snapshot. -/
theorem identify_tie_break_first_wins (q : List ℝ) (usuarios : List Usuario)
    (hne : usuarios ≠ [])
    (hemb : ∀ u ∈ usuarios, u.embedding ≠ [])
    (hdim : ∀ u ∈ usuarios, u.embedding.length = q.length) :
    ∃ menor u,
      comparacionFold q usuarios = .ok (menor, some u) ∧
      u ∈ usuarios ∧
      (∀ v ∈ usuarios, cosineDistR q u.embedding ≤ cosineDistR q v.embedding) ∧
      (∀ v ∈ usuarios, cosineDistR q v.embedding ≤ cosineDistR q u.embedding →
        usuarios.indexOf u ≤ usuarios.indexOf v) := by
  cases usuarios with
  | nil => exact absurd rfl hne
  | cons c t =>
    have hc : c.embedding ≠ [] := hemb c (List.mem_cons_self c t)
    have hc' : c.embedding.isEmpty = false := by simp [hc]
    have ht : ∀ v ∈ t, v.embedding ≠ [] := fun v hv => hemb v (List.mem_cons_of_mem c hv)
    have hfold : comparacionFold q (c :: t)
        = .ok (List.foldl (pasoPuro q) ((⊤ : WithTop ℝ), none) (c :: t)) :=
      foldlM_pasoComparacion_eq q (c :: t) _ (fun u hu _ => hdim u hu)
    have hstep0 : pasoPuro q ((⊤ : WithTop ℝ), none) c
        = (((cosineDistR q c.embedding : ℝ) : WithTop ℝ), some c) := by
      simp only [pasoPuro, hc', Bool.false_eq_true, if_false]
      rw [if_pos (WithTop.coe_lt_top _)]
    have hsnd : (List.foldl (pasoPuro q) ((⊤ : WithTop ℝ), none) (c :: t)).2
        = List.argmin (fun u => cosineDistR q u.embedding) (c :: t) := by
      rw [List.foldl_cons, hstep0, foldl_pasoPuro_snd q t c ht]
      rfl
    cases hcase : List.argmin (fun u => cosineDistR q u.embedding) (c :: t) with
    | none =>
        rw [List.argmin_eq_none] at hcase
        exact absurd hcase (List.cons_ne_nil c t)
    | some u =>
        obtain ⟨hmem, hmin, hfirst⟩ := List.argmin_eq_some_iff.mp hcase
        have h2 : (List.foldl (pasoPuro q) ((⊤ : WithTop ℝ), none) (c :: t)).2 = some u := by
          rw [hsnd, hcase]
        refine ⟨(List.foldl (pasoPuro q) ((⊤ : WithTop ℝ), none) (c :: t)).1, u, ?_,
          hmem, hmin, hfirst⟩
        rw [hfold, ← h2]

/-- Witness for C8: one enrolled user with embedding `[0, 1]`, query `[1, 0]`. -/
theorem identify_tie_break_first_wins_witness :
    ∃ menor u,
      comparacionFold [(1 : ℝ), 0] [⟨1, "Ana", "Diaz", "a@b.c", [0, 1], none⟩]
        = .ok (menor, some u) ∧
      u ∈ [⟨1, "Ana", "Diaz", "a@b.c", [0, 1], none⟩] ∧
      (∀ v ∈ [(⟨1, "Ana", "Diaz", "a@b.c", [0, 1], none⟩ : Usuario)],
        cosineDistR [(1 : ℝ), 0] u.embedding ≤ cosineDistR [(1 : ℝ), 0] v.embedding) ∧
      (∀ v ∈ [(⟨1, "Ana", "Diaz", "a@b.c", [0, 1], none⟩ : Usuario)],
        cosineDistR [(1 : ℝ), 0] v.embedding ≤ cosineDistR [(1 : ℝ), 0] u.embedding →
        [(⟨1, "Ana", "Diaz", "a@b.c", [0, 1], none⟩ : Usuario)].indexOf u
          ≤ [(⟨1, "Ana", "Diaz", "a@b.c", [0, 1], none⟩ : Usuario)].indexOf v) :=
  identify_tie_break_first_wins [(1 : ℝ), 0]
    [⟨1, "Ana", "Diaz", "a@b.c", [0, 1], none⟩] (by simp)
    (by
      intro u hu
      rw [List.mem_singleton] at hu
      subst hu
      simp)
    (by
      intro u hu
      rw [List.mem_singleton] at hu
      subst hu
      rfl)

theorem cosine_error (a b : List ℝ) (e : ErrS) (h : cosine a b = .error e) :
    e = .dimensionMismatch := by
  unfold cosine at h
  by_cases hl : a.length = b.length
  · rw [if_pos hl] at h
    exact Except.noConfusion h
  · rw [if_neg hl] at h
    exact (Except.error.inj h).symm

theorem pasoComparacion_error (q : List ℝ) (st : WithTop ℝ × Option Usuario)
    (u : Usuario) (e : ErrS) (h : pasoComparacion q st u = .error e) :
    e = .dimensionMismatch := by
  unfold pasoComparacion at h
  split at h
  · exact Except.noConfusion h
  · split at h
    · rename_i e' hcos
      rw [← Except.error.inj h]
      exact cosine_error q u.embedding e' hcos
    · split at h
      · exact Except.noConfusion h
      · exact Except.noConfusion h

/-- The only error the identification scan itself can produce is the
dimension-mismatch one. -/
theorem foldlM_pasoComparacion_error (q : List ℝ) :
    ∀ (l : List Usuario) (st : WithTop ℝ × Option Usuario) (e : ErrS),
      List.foldlM (pasoComparacion q) st l = .error e → e = .dimensionMismatch
  | [], _, _ => fun h => Except.noConfusion h
  | u :: t, st, e => by
    intro h
    rw [List.foldlM_cons] at h
    cases hstep : pasoComparacion q st u with
    | error e' =>
        rw [hstep, exceptBind_error] at h
        rw [← Except.error.inj h]
        exact pasoComparacion_error q st u e' hstep
    | ok st' =>
        rw [hstep, exceptBind_ok] at h
        exact foldlM_pasoComparacion_error q t st' e h

theorem cosine_mismatch (a b : List ℝ) (hab : a.length ≠ b.length) :
    cosine a b = .error .dimensionMismatch := by
  unfold cosine
  rw [if_neg hab]

/-- A non-empty stored embedding of the wrong dimension makes the whole
identification scan fail with the dimension error. -/
theorem foldlM_pasoComparacion_mismatch (q : List ℝ) :
    ∀ (l : List Usuario) (st : WithTop ℝ × Option Usuario),
      (∃ u ∈ l, u.embedding ≠ [] ∧ u.embedding.length ≠ q.length) →
      List.foldlM (pasoComparacion q) st l = .error .dimensionMismatch
  | [], _, h => absurd h (by simp)
  | u :: t, st, h => by
    rw [List.foldlM_cons]
    cases hstep : pasoComparacion q st u with
    | error e =>
        rw [exceptBind_error, pasoComparacion_error q st u e hstep]
    | ok st' =>
        rw [exceptBind_ok]
        apply foldlM_pasoComparacion_mismatch q t st'
        obtain ⟨w, hw, hwne, hwlen⟩ := h
        rcases List.mem_cons.mp hw with rfl | hwt
        · exfalso
          have hbad : pasoComparacion q st w = .error .dimensionMismatch := by
            unfold pasoComparacion
            rw [if_neg (by simp [hwne]),
              cosine_mismatch q w.embedding (fun hh => hwlen hh.symm)]
          rw [hbad] at hstep
          exact Except.noConfusion hstep
        · exact ⟨w, hwt, hwne, hwlen⟩

/-- A non-excluded, non-empty stored embedding of the wrong dimension means
the duplicate check cannot succeed. -/
theorem validarRostroDuplicado_mismatch :
    ∀ (usuarios : List Usuario) (q : List ℝ) (excl : Option ℤ),
      (∃ u ∈ usuarios, excluidoTruthy excl u.id = false ∧ u.embedding ≠ [] ∧
        u.embedding.length ≠ q.length) →
      validarRostroDuplicado usuarios q excl ≠ .ok ()
  | [], _, _, h => absurd h (by simp)
  | u :: t, q, excl, h => by
    intro hok
    obtain ⟨w, hw, hwex, hwne, hwlen⟩ := h
    unfold validarRostroDuplicado at hok
    by_cases hex : excluidoTruthy excl u.id
    · rw [if_pos hex] at hok
      rcases List.mem_cons.mp hw with rfl | hwt
      · rw [hwex] at hex
        exact Bool.noConfusion hex
      · exact validarRostroDuplicado_mismatch t q excl ⟨w, hwt, hwex, hwne, hwlen⟩ hok
    · rw [if_neg hex] at hok
      by_cases he : u.embedding.isEmpty
      · rw [if_pos he] at hok
        rcases List.mem_cons.mp hw with rfl | hwt
        · exact hwne (by simpa using he)
        · exact validarRostroDuplicado_mismatch t q excl ⟨w, hwt, hwex, hwne, hwlen⟩ hok
      · rw [if_neg he] at hok
        cases hcos : cosine q u.embedding with
        | error e =>
            rw [hcos, exceptBind_error] at hok
            exact Except.noConfusion hok
        | ok d =>
            rw [hcos, exceptBind_ok] at hok
            by_cases hlt : d < UMBRAL_SIMILITUD
            · rw [if_pos hlt] at hok
              exact Except.noConfusion hok
            · rw [if_neg hlt] at hok
              rcases List.mem_cons.mp hw with rfl | hwt
              · rw [cosine_mismatch q w.embedding (fun hh => hwlen hh.symm)] at hcos
                exact Except.noConfusion hcos
              · exact validarRostroDuplicado_mismatch t q excl
                  ⟨w, hwt, hwex, hwne, hwlen⟩ hok

/-- C3: comparing two embeddings of different lengths always fails with
`DimensionMismatch` — the distance computation itself errors (it never
produces a value, so nothing is truncated or padded), the identification
scan propagates the error, and the duplicate check cannot succeed past a
mismatched non-skipped entry. -/
theorem dimension_mismatch_guard (a b q : List ℝ) (usuarios : List Usuario)
    (excl : Option ℤ) (hab : a.length ≠ b.length) :
    cosine a b = .error .dimensionMismatch ∧
    (∀ d, cosine a b ≠ .ok d) ∧
    ((∃ u ∈ usuarios, u.embedding ≠ [] ∧ u.embedding.length ≠ q.length) →
      compararRostroEmbedding q usuarios = .error .dimensionMismatch) ∧
    ((∃ u ∈ usuarios, excluidoTruthy excl u.id = false ∧ u.embedding ≠ [] ∧
        u.embedding.length ≠ q.length) →
      validarRostroDuplicado usuarios q excl ≠ .ok ()) := by
  refine ⟨cosine_mismatch a b hab, ?_, ?_, ?_⟩
  · intro d hok
    rw [cosine_mismatch a b hab] at hok
    exact Except.noConfusion hok
  · intro hex
    have hne : usuarios ≠ [] := by
      obtain ⟨w, hw, _⟩ := hex
      exact List.ne_nil_of_mem hw
    exact compararRostroEmbedding_eq_error q usuarios hne _
      (foldlM_pasoComparacion_mismatch q usuarios _ hex)
  · exact validarRostroDuplicado_mismatch usuarios q excl

/-- Witness for C3: `a = [1]`, `b = [1, 2]`, one enrolled user storing the
mismatched embedding `[1, 2]` against the query `[1]`. -/
theorem dimension_mismatch_guard_witness :
    cosine [(1 : ℝ)] [(1 : ℝ), 2] = .error .dimensionMismatch ∧
    (∀ d, cosine [(1 : ℝ)] [(1 : ℝ), 2] ≠ .ok d) ∧
    ((∃ u ∈ [(⟨1, "Ana", "Diaz", "a@b.c", [1, 2], none⟩ : Usuario)],
        u.embedding ≠ [] ∧ u.embedding.length ≠ [(1 : ℝ)].length) →
      compararRostroEmbedding [(1 : ℝ)] [⟨1, "Ana", "Diaz", "a@b.c", [1, 2], none⟩]
        = .error .dimensionMismatch) ∧
    ((∃ u ∈ [(⟨1, "Ana", "Diaz", "a@b.c", [1, 2], none⟩ : Usuario)],
        excluidoTruthy none u.id = false ∧ u.embedding ≠ [] ∧
        u.embedding.length ≠ [(1 : ℝ)].length) →
      validarRostroDuplicado [⟨1, "Ana", "Diaz", "a@b.c", [1, 2], none⟩] [(1 : ℝ)] none
        ≠ .ok ()) :=
  dimension_mismatch_guard [(1 : ℝ)] [(1 : ℝ), 2] [(1 : ℝ)]
    [⟨1, "Ana", "Diaz", "a@b.c", [1, 2], none⟩] none (by simp)

/-- Counterexample to C6 as stated: with `excludeId = 0` and an enrolled user
whose id is 0, the Python truthiness test `if excluir_usuario_id and ...`
never skips that user (0 is falsy), so the check fails because of the
excluded identity's own stored embedding — here the query equals that
embedding, giving distance 0 and `DuplicateFace(0, 0)`. -/
theorem duplicate_exclusion_fails_at_zero :
    validarRostroDuplicado [⟨0, "Ana", "Diaz", "a@b.c", [1, 0], none⟩]
      [(1 : ℝ), 0] (some 0) = .error (.rostroDuplicado 0 0) := by
  have hd : cosineDistR [(1 : ℝ), 0] [(1 : ℝ), 0] = 0 := by
    unfold cosineDistR dotProd
    simp
  have hcos : cosine [(1 : ℝ), 0] [(1 : ℝ), 0] = .ok 0 := by
    unfold cosine
    rw [if_pos rfl, hd]
  unfold validarRostroDuplicado
  rw [if_neg (by decide), if_neg (by simp), hcos, exceptBind_ok,
    if_pos (by norm_num [UMBRAL_SIMILITUD])]

/-- C6 amended: for every nonzero exclusion id X, the duplicate check never
fails because of X's own stored embedding — any `DuplicateFace` it raises
names a user id different from X. -/
theorem duplicate_exclusion_nonzero :
    ∀ (usuarios : List Usuario) (q : List ℝ) (x : ℤ), x ≠ 0 →
      ∀ (uid : ℤ) (d : ℝ),
        validarRostroDuplicado usuarios q (some x) = .error (.rostroDuplicado uid d) →
        uid ≠ x
  | [], _, _, _, _, _ => fun h => Except.noConfusion h
  | u :: t, q, x, hx, uid, d => by
    intro h
    unfold validarRostroDuplicado at h
    by_cases hex : excluidoTruthy (some x) u.id
    · rw [if_pos hex] at h
      exact duplicate_exclusion_nonzero t q x hx uid d h
    · rw [if_neg hex] at h
      by_cases he : u.embedding.isEmpty
      · rw [if_pos he] at h
        exact duplicate_exclusion_nonzero t q x hx uid d h
      · rw [if_neg he] at h
        cases hcos : cosine q u.embedding with
        | error e =>
            rw [hcos, exceptBind_error] at h
            rw [cosine_error q u.embedding e hcos] at h
            have := Except.error.inj h
            exact ErrS.noConfusion this
        | ok dd =>
            rw [hcos, exceptBind_ok] at h
            by_cases hlt : dd < UMBRAL_SIMILITUD
            · rw [if_pos hlt] at h
              have hinj := Except.error.inj h
              have huid : u.id = uid := by
                injection hinj
              rw [← huid]
              intro heq
              apply hex
              simp [excluidoTruthy, hx, heq]
            · rw [if_neg hlt] at h
              exact duplicate_exclusion_nonzero t q x hx uid d h

/-- Witness for C6 amended: excludeId 1, a different user (id 2) storing the
query embedding itself; the check fails naming id 2, and 2 ≠ 1. -/
theorem duplicate_exclusion_nonzero_witness :
    validarRostroDuplicado [⟨2, "Ana", "Diaz", "a@b.c", [1, 0], none⟩]
      [(1 : ℝ), 0] (some 1) = .error (.rostroDuplicado 2 0) ∧ (2 : ℤ) ≠ 1 := by
  have hd : cosineDistR [(1 : ℝ), 0] [(1 : ℝ), 0] = 0 := by
    unfold cosineDistR dotProd
    simp
  have hcos : cosine [(1 : ℝ), 0] [(1 : ℝ), 0] = .ok 0 := by
    unfold cosine
    rw [if_pos rfl, hd]
  have heval : validarRostroDuplicado [⟨2, "Ana", "Diaz", "a@b.c", [1, 0], none⟩]
      [(1 : ℝ), 0] (some 1) = .error (.rostroDuplicado 2 0) := by
    unfold validarRostroDuplicado
    rw [if_neg (by decide), if_neg (by simp), hcos, exceptBind_ok,
      if_pos (by norm_num [UMBRAL_SIMILITUD])]
  exact ⟨heval, duplicate_exclusion_nonzero
    [⟨2, "Ana", "Diaz", "a@b.c", [1, 0], none⟩] [(1 : ℝ), 0] 1 (by decide) 2 0 heval⟩

theorem validarRostroDuplicado_vacios :
    ∀ (usuarios : List Usuario) (q : List ℝ) (excl : Option ℤ),
      (∀ u ∈ usuarios, u.embedding = []) →
      validarRostroDuplicado usuarios q excl = .ok ()
  | [], _, _, _ => rfl
  | u :: t, q, excl, h => by
    have ht : ∀ v ∈ t, v.embedding = [] := fun v hv => h v (List.mem_cons_of_mem u hv)
    have hu : u.embedding.isEmpty = true := by simp [h u (List.mem_cons_self u t)]
    unfold validarRostroDuplicado
    by_cases hex : excluidoTruthy excl u.id
    · rw [if_pos hex]
      exact validarRostroDuplicado_vacios t q excl ht
    · rw [if_neg hex, if_pos hu]
      exact validarRostroDuplicado_vacios t q excl ht

theorem foldlM_pasoComparacion_vacios (q : List ℝ) :
    ∀ (l : List Usuario) (st : WithTop ℝ × Option Usuario),
      (∀ u ∈ l, u.embedding = []) →
      List.foldlM (pasoComparacion q) st l = .ok st
  | [], _, _ => rfl
  | u :: t, st, h => by
    have ht : ∀ v ∈ t, v.embedding = [] := fun v hv => h v (List.mem_cons_of_mem u hv)
    have hu : u.embedding.isEmpty = true := by simp [h u (List.mem_cons_self u t)]
    rw [List.foldlM_cons, show pasoComparacion q st u = .ok st by simp [pasoComparacion, hu],
      exceptBind_ok]
    exact foldlM_pasoComparacion_vacios q t st ht

/-- `NoEnrolledIdentities` is produced exactly for the empty fetched list. -/
theorem compararRostroEmbedding_sinUsuarios (q : List ℝ) (us : List Usuario) :
    compararRostroEmbedding q us = .error .sinUsuarios ↔ us = [] := by
  constructor
  · intro h
    by_cases hne : us = []
    · exact hne
    · exfalso
      cases hfold : comparacionFold q us with
      | error e =>
          have hd : e = .dimensionMismatch := foldlM_pasoComparacion_error q us _ e hfold
          rw [compararRostroEmbedding_eq_error q us hne e hfold] at h
          rw [Except.error.inj h] at hd
          exact ErrS.noConfusion hd
      | ok st =>
          obtain ⟨m, r⟩ := st
          cases r with
          | some u =>
              rw [compararRostroEmbedding_eq_some q us hne m u hfold] at h
              by_cases hlt : m < (UMBRAL_SIMILITUD : WithTop ℝ)
              · rw [if_pos hlt] at h
                exact Except.noConfusion h
              · rw [if_neg hlt] at h
                exact Except.noConfusion h
          | none =>
              rw [compararRostroEmbedding_eq_none q us hne m hfold] at h
              exact Except.noConfusion h
  · intro h
    subst h
    rfl

/-- C10: users whose stored embedding is empty are silently skipped by both
the identification scan and the duplicate check; a non-empty user list whose
embeddings are all empty makes `compararRostro` return the no-match result
with the tracked minimum still `inf`, not `NoEnrolledIdentities`; and the
`NoEnrolledIdentities` failure happens exactly when the fetched list is
empty. -/
theorem empty_embeddings_skipped (q : List ℝ) (usuarios : List Usuario)
    (excl : Option ℤ) (hvacios : ∀ u ∈ usuarios, u.embedding = []) :
    validarRostroDuplicado usuarios q excl = .ok () ∧
    (usuarios ≠ [] →
      comparacionFold q usuarios = .ok ((⊤ : WithTop ℝ), none) ∧
      compararRostroEmbedding q usuarios = .ok none) ∧
    (∀ (q' : List ℝ) (us : List Usuario),
      compararRostroEmbedding q' us = .error .sinUsuarios ↔ us = []) := by
  refine ⟨validarRostroDuplicado_vacios usuarios q excl hvacios, fun hne => ?_,
    fun q' us => compararRostroEmbedding_sinUsuarios q' us⟩
  have hfold : comparacionFold q usuarios = .ok ((⊤ : WithTop ℝ), none) :=
    foldlM_pasoComparacion_vacios q usuarios _ hvacios
  exact ⟨hfold, compararRostroEmbedding_eq_none q usuarios hne ⊤ hfold⟩

/-- Witness for C10: a single enrolled user with an empty stored embedding. -/
theorem empty_embeddings_skipped_witness :
    validarRostroDuplicado [⟨1, "Ana", "Diaz", "a@b.c", [], none⟩] [(1 : ℝ)] none
      = .ok () ∧
    ([(⟨1, "Ana", "Diaz", "a@b.c", [], none⟩ : Usuario)] ≠ [] →
      comparacionFold [(1 : ℝ)] [⟨1, "Ana", "Diaz", "a@b.c", [], none⟩]
        = .ok ((⊤ : WithTop ℝ), none) ∧
      compararRostroEmbedding [(1 : ℝ)] [⟨1, "Ana", "Diaz", "a@b.c", [], none⟩]
        = .ok none) ∧
    (∀ (q' : List ℝ) (us : List Usuario),
      compararRostroEmbedding q' us = .error .sinUsuarios ↔ us = []) :=
  empty_embeddings_skipped [(1 : ℝ)] [⟨1, "Ana", "Diaz", "a@b.c", [], none⟩] none
    (by
      intro u hu
      rw [List.mem_singleton] at hu
      subst hu
      rfl)

/-- Witness for C1: one enrolled user with embedding `[0, 1]`, query `[1, 0]`. -/
theorem identify_threshold_monotonicity_witness :
    ∃ menor reconocido,
      comparacionFold [(1 : ℝ), 0] [⟨1, "Ana", "Diaz", "a@b.c", [0, 1], none⟩]
        = .ok (menor, reconocido) ∧
      menor = specMinDistancia [(1 : ℝ), 0] [⟨1, "Ana", "Diaz", "a@b.c", [0, 1], none⟩] ∧
      (∀ nm, compararRostroEmbedding [(1 : ℝ), 0]
          [⟨1, "Ana", "Diaz", "a@b.c", [0, 1], none⟩] = .ok (some nm) →
        menor < (UMBRAL_SIMILITUD : WithTop ℝ)) ∧
      (compararRostroEmbedding [(1 : ℝ), 0]
          [⟨1, "Ana", "Diaz", "a@b.c", [0, 1], none⟩] = .ok none →
        (UMBRAL_SIMILITUD : WithTop ℝ) ≤ menor) :=
  identify_threshold_monotonicity [(1 : ℝ), 0]
    [⟨1, "Ana", "Diaz", "a@b.c", [0, 1], none⟩] (by simp)
    (by
      intro u hu hne
      rw [List.mem_singleton] at hu
      subst hu
      rfl)

/-- On a well-dimensioned snapshot containing a user within the threshold,
the duplicate check (without exclusion) fails with `DuplicateFace` naming an
enrolled user whose distance to the query is below the threshold. -/
theorem validarRostroDuplicado_encuentra :
    ∀ (usuarios : List Usuario) (q : List ℝ),
      (∀ u ∈ usuarios, u.embedding ≠ [] → u.embedding.length = q.length) →
      (∃ u ∈ usuarios, u.embedding ≠ [] ∧
        cosineDistR q u.embedding < UMBRAL_SIMILITUD) →
      ∃ u ∈ usuarios, u.embedding ≠ [] ∧
        cosineDistR q u.embedding < UMBRAL_SIMILITUD ∧
        validarRostroDuplicado usuarios q none
          = .error (.rostroDuplicado u.id (cosineDistR q u.embedding))
  | [], _, _, hdup => absurd hdup (by simp)
  | u :: t, q, hdim, hdup => by
    have hu := hdim u (List.mem_cons_self u t)
    have ht : ∀ v ∈ t, v.embedding ≠ [] → v.embedding.length = q.length :=
      fun v hv => hdim v (List.mem_cons_of_mem u hv)
    have hexc : excluidoTruthy none u.id = false := rfl
    by_cases he : u.embedding.isEmpty
    · have hne : u.embedding = [] := by simpa using he
      obtain ⟨w, hw, hwne, hwlt⟩ := hdup
      rcases List.mem_cons.mp hw with rfl | hwt
      · exact absurd hne hwne
      · obtain ⟨v, hv, hvne, hvlt, heq⟩ :=
          validarRostroDuplicado_encuentra t q ht ⟨w, hwt, hwne, hwlt⟩
        refine ⟨v, List.mem_cons_of_mem u hv, hvne, hvlt, ?_⟩
        unfold validarRostroDuplicado
        rw [if_neg (by rw [hexc]; exact Bool.false_ne_true), if_pos he]
        exact heq
    · have hune : u.embedding ≠ [] := by
        rw [← List.isEmpty_eq_false]
        simpa using he
      have hcos : cosine q u.embedding = .ok (cosineDistR q u.embedding) := by
        unfold cosine
        rw [if_pos (hu hune).symm]
      by_cases hlt : cosineDistR q u.embedding < UMBRAL_SIMILITUD
      · refine ⟨u, List.mem_cons_self u t, hune, hlt, ?_⟩
        unfold validarRostroDuplicado
        rw [if_neg (by rw [hexc]; exact Bool.false_ne_true), if_neg he, hcos,
          exceptBind_ok, if_pos hlt]
      · obtain ⟨w, hw, hwne, hwlt⟩ := hdup
        rcases List.mem_cons.mp hw with rfl | hwt
        · exact absurd hwlt hlt
        · obtain ⟨v, hv, hvne, hvlt, heq⟩ :=
            validarRostroDuplicado_encuentra t q ht ⟨w, hwt, hwne, hwlt⟩
          refine ⟨v, List.mem_cons_of_mem u hv, hvne, hvlt, ?_⟩
          unfold validarRostroDuplicado
          rw [if_neg (by rw [hexc]; exact Bool.false_ne_true), if_neg he, hcos,
            exceptBind_ok, if_neg hlt]
          exact heq

/-- C2: enrolling a new identity whose (valid) data passes the field checks
but whose embedding is within `UMBRAL_SIMILITUD` of an enrolled identity's
embedding makes the duplicate check fail with 409 `DuplicateFace` carrying the
id of an enrolled user whose distance is below the threshold, and
`crearUsuario` propagates exactly that failure without ever producing a
created user or an extended store: the duplicate check runs strictly before
the upload and the insert. -/
theorem enroll_duplicate_rejected (usuarios : List Usuario)
    (nombre apellido email : String) (embedding : List ℝ)
    (imagen : Option (List ℕ)) (subida : Except Unit String) (nuevoId : ℤ)
    (hn1 : nombre.isEmpty = false) (hn2 : (stripPy nombre).isEmpty = false)
    (ha1 : apellido.isEmpty = false) (ha2 : (stripPy apellido).isEmpty = false)
    (hl1 : nombre.length ≤ 100) (hl2 : apellido.length ≤ 100)
    (he1 : email.isEmpty = false) (he2 : (stripPy email).isEmpty = false)
    (hev : emailValido email = true) (hemb : embedding ≠ [])
    (hdim : ∀ u ∈ usuarios, u.embedding ≠ [] → u.embedding.length = embedding.length)
    (hdup : ∃ u ∈ usuarios, u.embedding ≠ [] ∧
      cosineDistR embedding u.embedding < UMBRAL_SIMILITUD) :
    ∃ u ∈ usuarios,
      cosineDistR embedding u.embedding < UMBRAL_SIMILITUD ∧
      validarRostroDuplicado usuarios embedding none
        = .error (.rostroDuplicado u.id (cosineDistR embedding u.embedding)) ∧
      crearUsuario usuarios nombre apellido email embedding imagen subida nuevoId
        = .error (.rostroDuplicado u.id (cosineDistR embedding u.embedding)) ∧
      ∀ res, crearUsuario usuarios nombre apellido email embedding imagen subida
        nuevoId ≠ .ok res := by
  obtain ⟨u, hu, hune, hult, heq⟩ :=
    validarRostroDuplicado_encuentra usuarios embedding hdim hdup
  have hcrear : crearUsuario usuarios nombre apellido email embedding imagen
      subida nuevoId
      = .error (.rostroDuplicado u.id (cosineDistR embedding u.embedding)) := by
    unfold crearUsuario
    rw [if_neg (by simp [hn1, hn2]), if_neg (by simp [ha1, ha2]),
      if_neg (by simp [Nat.not_lt.mpr hl1, Nat.not_lt.mpr hl2]),
      if_neg (by simp [he1, he2]), if_neg (by simp [hev]),
      if_neg (by simp [hemb]), heq, exceptBind_error]
  refine ⟨u, hu, hult, heq, hcrear, ?_⟩
  intro res hok
  rw [hcrear] at hok
  exact Except.noConfusion hok

/-- Witness for C2: enrolled user id 1 with embedding `[1, 0]`, and a new
enrollment of "Ana Diaz" with the identical embedding. -/
theorem enroll_duplicate_rejected_witness :
    ∃ u ∈ [(⟨1, "Bob", "Lee", "x@y.zz", [1, 0], none⟩ : Usuario)],
      cosineDistR [(1 : ℝ), 0] u.embedding < UMBRAL_SIMILITUD ∧
      validarRostroDuplicado [⟨1, "Bob", "Lee", "x@y.zz", [1, 0], none⟩]
          [(1 : ℝ), 0] none
        = .error (.rostroDuplicado u.id (cosineDistR [(1 : ℝ), 0] u.embedding)) ∧
      crearUsuario [⟨1, "Bob", "Lee", "x@y.zz", [1, 0], none⟩] "Ana" "Diaz"
          "a@b.c" [(1 : ℝ), 0] none (.ok "ruta") 2
        = .error (.rostroDuplicado u.id (cosineDistR [(1 : ℝ), 0] u.embedding)) ∧
      ∀ res, crearUsuario [⟨1, "Bob", "Lee", "x@y.zz", [1, 0], none⟩] "Ana"
        "Diaz" "a@b.c" [(1 : ℝ), 0] none (.ok "ruta") 2 ≠ .ok res := by
  have hd : cosineDistR [(1 : ℝ), 0] [(1 : ℝ), 0] = 0 := by
    unfold cosineDistR dotProd
    simp
  exact enroll_duplicate_rejected [⟨1, "Bob", "Lee", "x@y.zz", [1, 0], none⟩]
    "Ana" "Diaz" "a@b.c" [(1 : ℝ), 0] none (.ok "ruta") 2
    rfl (by decide) rfl (by decide) (by decide) (by decide) rfl (by decide)
    (by decide) (by simp)
    (by
      intro u hu
      rw [List.mem_singleton] at hu
      subst hu
      intro h
      rfl)
    ⟨⟨1, "Bob", "Lee", "x@y.zz", [1, 0], none⟩, List.mem_singleton.mpr rfl,
      by simp, by rw [hd]; norm_num [UMBRAL_SIMILITUD]⟩
